import Mathlib

/-!
Verification of the viscosity web application backend (`app.py`).

The numerical core of the program is modelled over the real numbers:
Python `math.log10` is `Real.logb 10`, `math.log` is `Real.log`, and the
float power `**` is `Real.rpow`.  Python raises `ValueError` when
`math.log10` / `math.log` receives a non-positive argument and
`ZeroDivisionError` on float division by zero; places where such an
exception can escape are modelled with `Option`/`Except`/dedicated
constructors (`none`, `.crash`, `.exc`), so that "returns a value",
"returns NaN" and "raises" are distinguished exactly as in the source.
Real-number comparisons are classical, hence this development is
noncomputable; concrete evaluations in witnesses are done with `simp` /
`norm_num`.
-/

noncomputable section

open scoped Classical

/-- The Walther transform `x = log10(log10(v + 0.7))` as a raw real formula
(lines 46 and 83-84 of `app.py`). Meaningful when `v + 0.7 > 1`. -/
def walther_x (v : ℝ) : ℝ := Real.logb 10 (Real.logb 10 (v + 0.7))

/-- The Walther transform as executed by Python: `math.log10(math.log10(v + 0.7))`
raises `ValueError` (modelled `none`) exactly when `v + 0.7 ≤ 1`, i.e. when the
inner argument is non-positive or the inner logarithm is non-positive. -/
def walther_forward (v : ℝ) : Option ℝ :=
  if v + 0.7 ≤ 1 then none else some (walther_x v)

/-- The inverse Walther transform `v = 10**(10**x) - 0.7` (lines 50 and 99). -/
def walther_inverse (x : ℝ) : ℝ := 10 ^ ((10 : ℝ) ^ x) - 0.7

/-- Python `math.log10(t + 273.15)` as executed by Python: raises (modelled `none`)
when `t + 273.15 ≤ 0` (lines 85-86 and 98). -/
def log10T (t : ℝ) : Option ℝ :=
  if t + 273.15 ≤ 0 then none else some (Real.logb 10 (t + 273.15))

/-- Model of `walther_params` (lines 58-93): slope and intercept of the Walther
correlation from two calibration points; `none` models an uncaught
`ValueError` from one of the four logarithms. -/
def walther_params (v1 t1 v2 t2 : ℝ) : Option (ℝ × ℝ) :=
  match walther_forward v1, walther_forward v2, log10T t1, log10T t2 with
  | some x1, some x2, some y1, some y2 =>
    let slope := if |y2 - y1| < 1e-12 then (0 : ℝ) else (x1 - x2) / (y2 - y1)
    some (slope, x1 + slope * y1)
  | _, _, _, _ => none

/-- Model of `walther_viscosity_at_temp` (lines 96-99): viscosity at a temperature from
Walther parameters; `none` models the `ValueError` when `temp ≤ -273.15`. -/
def walther_viscosity_at_temp (slope intercept temp : ℝ) : Option ℝ :=
  (log10T temp).map (fun y => walther_inverse (intercept - slope * y))

/-- Round-trip of the transform pair on the mathematical domain `v > 0.3`. -/
lemma inverse_walther_x (v : ℝ) (hv : 0.3 < v) : walther_inverse (walther_x v) = v := by
  have h1 : (0 : ℝ) < v + 0.7 := by linarith
  have h2 : (1 : ℝ) < v + 0.7 := by linarith
  have h3 : 0 < Real.logb 10 (v + 0.7) := Real.logb_pos (by norm_num) h2
  unfold walther_inverse walther_x
  rw [Real.rpow_logb (by norm_num) (by norm_num) h3,
    Real.rpow_logb (by norm_num) (by norm_num) h1]
  ring

/-- C1: Walther round-trip — for every viscosity `v > 0.3` the forward
transform `log10(log10(v+0.7))` succeeds and applying the inverse transform
`10^(10^x) - 0.7` to its result returns exactly `v`. -/
theorem walther_round_trip (v : ℝ) (hv : 0.3 < v) :
    (walther_forward v).map walther_inverse = some v := by
  have h1 : ¬ (v + 0.7 ≤ 1) := by linarith
  simp [walther_forward, h1, inverse_walther_x v hv]

theorem walther_round_trip_witness :
    (walther_forward 1).map walther_inverse = some 1 :=
  walther_round_trip 1 (by norm_num)

/-- C2: calibration exactness — for `v1, v2 > 0.3`, `t1, t2 > -273.15` and
log-temperatures at least `1e-12` apart, `walther_params` succeeds and
evaluating the fitted parameters at the calibration temperatures reproduces
the calibration viscosities exactly. -/
theorem walther_calibration_exact (v1 t1 v2 t2 : ℝ)
    (hv1 : 0.3 < v1) (hv2 : 0.3 < v2)
    (ht1 : -273.15 < t1) (ht2 : -273.15 < t2)
    (hsep : 1e-12 ≤ |Real.logb 10 (t2 + 273.15) - Real.logb 10 (t1 + 273.15)|) :
    ∃ s i, walther_params v1 t1 v2 t2 = some (s, i) ∧
      walther_viscosity_at_temp s i t1 = some v1 ∧
      walther_viscosity_at_temp s i t2 = some v2 := by
  have hx1 : ¬ (v1 + 0.7 ≤ 1) := by linarith
  have hx2 : ¬ (v2 + 0.7 ≤ 1) := by linarith
  have hy1 : ¬ (t1 + 273.15 ≤ 0) := by linarith
  have hy2 : ¬ (t2 + 273.15 ≤ 0) := by linarith
  set x1 := walther_x v1 with hx1d
  set x2 := walther_x v2 with hx2d
  set y1 := Real.logb 10 (t1 + 273.15) with hy1d
  set y2 := Real.logb 10 (t2 + 273.15) with hy2d
  have hne : y2 - y1 ≠ 0 := by
    intro h
    rw [h] at hsep
    simp at hsep
    linarith
  have hslope : ¬ (|y2 - y1| < 1e-12) := not_lt.mpr hsep
  refine ⟨(x1 - x2) / (y2 - y1), x1 + (x1 - x2) / (y2 - y1) * y1, ?_, ?_, ?_⟩
  · simp only [walther_params, walther_forward, hx1, hx2, if_false, log10T, hy1, hy2,
      ← hx1d, ← hx2d, ← hy1d, ← hy2d]
    rw [if_neg hslope]
  · simp only [walther_viscosity_at_temp, log10T, hy1, if_false, Option.map_some', ← hy1d]
    have h : x1 + (x1 - x2) / (y2 - y1) * y1 - (x1 - x2) / (y2 - y1) * y1 = x1 := by ring
    rw [h, inverse_walther_x v1 hv1]
  · simp only [walther_viscosity_at_temp, log10T, hy2, if_false, Option.map_some', ← hy2d]
    have h : x1 + (x1 - x2) / (y2 - y1) * y1 - (x1 - x2) / (y2 - y1) * y2
        = x1 - (x1 - x2) / (y2 - y1) * (y2 - y1) := by ring
    rw [h, div_mul_cancel₀ _ hne]
    have h2 : x1 - (x1 - x2) = x2 := by ring
    rw [h2, inverse_walther_x v2 hv2]

theorem walther_calibration_exact_witness :
    ∃ s i, walther_params 1 (-263.15) 10 726.85 = some (s, i) ∧
      walther_viscosity_at_temp s i (-263.15) = some 1 ∧
      walther_viscosity_at_temp s i 726.85 = some 10 := by
  apply walther_calibration_exact 1 (-263.15) 10 726.85 (by norm_num) (by norm_num)
    (by norm_num) (by norm_num)
  have h1 : (726.85 : ℝ) + 273.15 = 1000 := by norm_num
  have h2 : (-263.15 : ℝ) + 273.15 = 10 := by norm_num
  have h10 : Real.logb 10 (10 : ℝ) = 1 :=
    Real.logb_self_eq_one (by norm_num : (1 : ℝ) < 10)
  have h1000 : Real.logb 10 (1000 : ℝ) = 3 := by
    rw [show (1000 : ℝ) = 10 ^ (3 : ℕ) by norm_num, Real.logb_pow, h10]
    norm_num
  rw [h1, h2, h10, h1000]
  norm_num

/-! ### The `/api/viscosity_temperature` endpoint (claim C4) -/

/-- Outcome of an HTTP handler: a successful JSON payload, a handled error
returned with a 400 status, or an exception escaping the handler uncaught
(Flask then produces a 500 response). -/
inductive ApiOutcome (α : Type) where
  | ok (payload : α)
  | clientError (msg : String)
  | crash

/-- Payload of `/api/viscosity_temperature` (lines 227-239). -/
structure VTPayload where
  slope : ℝ
  intercept : ℝ
  table : List (ℝ × ℝ)
  targetViscosity : Option ℝ

/-- The viscosity table for temperatures `-20, -10, …, 100` (lines 220-225). -/
def vt_table (slope intercept : ℝ) : Option (List (ℝ × ℝ)) :=
  (List.range 13).mapM (fun k =>
    (walther_viscosity_at_temp slope intercept (-20 + 10 * (k : ℝ))).map
      (fun v => (-20 + 10 * (k : ℝ), v)))

/-- Model of `api_viscosity_temperature` (lines 208-239) on numeric inputs.  The
handler calls `walther_params` outside of any `try`, so a `ValueError`
raised there escapes uncaught (`crash`).  The optional target computation
at lines 232-238 is wrapped in `except (TypeError, ValueError): pass`, so a
domain error there merely omits the `targetViscosity` field. -/
def api_viscosity_temperature (v1 t1 v2 t2 : ℝ) (target : Option ℝ) :
    ApiOutcome VTPayload :=
  match walther_params v1 t1 v2 t2 with
  | none => .crash
  | some (s, i) =>
    match vt_table s i with
    | none => .crash
    | some tbl =>
      match target with
      | none => .ok ⟨s, i, tbl, none⟩
      | some tt =>
        match walther_viscosity_at_temp s i tt with
        | none => .ok ⟨s, i, tbl, none⟩
        | some v => .ok ⟨s, i, tbl, some v⟩

/-- C4: for any input with `v1 ≤ 0.3` the temperature-viscosity operation
does NOT fail with a typed error: the `ValueError` raised by `math.log10`
inside `walther_params` escapes the handler uncaught.  This contradicts the
claimed typed `DomainError`; the code lets the lower-level numeric
exception escape. -/
theorem api_vt_uncaught_domain_error (v1 t1 v2 t2 : ℝ) (target : Option ℝ)
    (hv : v1 ≤ 0.3) :
    api_viscosity_temperature v1 t1 v2 t2 target = ApiOutcome.crash := by
  have h : walther_forward v1 = none := if_pos (by linarith)
  simp [api_viscosity_temperature, walther_params, h]

theorem api_vt_uncaught_domain_error_witness :
    api_viscosity_temperature 0.1 0 10 100 none = ApiOutcome.crash :=
  api_vt_uncaught_domain_error 0.1 0 10 100 none (by norm_num)

/-! ### The viscosity index engine (claims C3 and C9) -/

/-- Result of a Python numeric routine that may return a value, return
`float('nan')`, or raise an exception. -/
inductive VIResult where
  | ok (r : ℝ)
  | nanr
  | exc

/-- Python `round(x, 1)` modelled over ℝ (ties rounded as by `round`). -/
def round1 (x : ℝ) : ℝ := (round (x * 10) : ℤ) / 10

/-- Function `a(Y)` of the VI band `Y ∈ [2, 4)` (line 146). -/
def bandA1 (Y : ℝ) : ℝ := 0.827 * Y ^ 2 + 1.632 * Y - 0.181

/-- Function `b(Y)` of the VI band `Y ∈ [2, 4)` (line 147). -/
def bandB1 (Y : ℝ) : ℝ := 0.3094 * Y ^ 2 + 0.182 * Y

/-- Function `a(Y)` of the VI band `Y ∈ [4, 6.1)` (line 150). -/
def bandA2 (Y : ℝ) : ℝ :=
  -2.6758 * Y ^ 2 + 96.671 * Y - 269.664 * Y ^ (0.5 : ℝ) + 215.025

/-- Function `b(Y)` of the VI band `Y ∈ [4, 6.1)` (line 151). -/
def bandB2 (Y : ℝ) : ℝ :=
  -7.1955 * Y ^ 2 + 241.992 * Y - 725.478 * Y ^ (0.5 : ℝ) + 603.888

/-- Function `a(Y)` of the VI band `Y ∈ [6.1, 7.2)` (line 154). -/
def bandA3 (Y : ℝ) : ℝ := 2.32 * Y ^ (1.5626 : ℝ)

/-- Function `b(Y)` of the VI band `Y ∈ [6.1, 7.2)` (line 155). -/
def bandB3 (Y : ℝ) : ℝ := 2.838 * Y ^ 2 - 27.35 * Y + 81.83

/-- Function `a(Y)` of the VI band `Y ∈ [7.2, 12.4)` (line 158). -/
def bandA4 (Y : ℝ) : ℝ := 0.1922 * Y ^ 2 + 8.25 * Y - 18.728

/-- Function `b(Y)` of the VI band `Y ∈ [7.2, 12.4)` (line 159). -/
def bandB4 (Y : ℝ) : ℝ := 0.5463 * Y ^ 2 + 2.442 * Y - 14.16

/-- Function `a(Y)` of the VI band `Y ∈ [12.4, 70)` (line 162). -/
def bandA5 (Y : ℝ) : ℝ :=
  1795.2 * Y ^ (-2 : ℤ) + 0.1818 * Y ^ 2 + 10.357 * Y - 54.547

/-- Function `b(Y)` of the VI band `Y ∈ [12.4, 70)` (line 163). -/
def bandB5 (Y : ℝ) : ℝ := 0.6995 * Y ^ 2 - 1.19 * Y + 7.6

/-- Function `b(Y)` of the VI band `Y ≥ 70` (line 168). -/
def bandB6 (Y : ℝ) : ℝ := 0.666904 * Y ^ 2 + 2.8238 * Y - 119.298

/-- Function `a(Y)` of the VI band `Y ≥ 70` (lines 167-169): `a = a0 - b`. -/
def bandA6 (Y : ℝ) : ℝ :=
  0.835313 * Y ^ 2 + 14.6731 * Y - 216.246 - bandB6 Y

/-- The inner helper `compute_piece` (lines 128-142), closed over `U` and
`Y`.  Python raises `ZeroDivisionError` when `b == 0` (the division for `c`
precedes the guard) and when `math.log(Y) == 0`; both are modelled `.exc`. -/
def compute_piece (U Y a b : ℝ) : VIResult :=
  if b = 0 then .exc
  else
    let c := 100 * (a + b - U) / b
    if a ≤ 0 ∨ U ≤ 0 ∨ Y ≤ 0 then .nanr
    else if Real.log Y = 0 then .exc
    else
      let d := (Real.log a - Real.log U) / Real.log Y
      let e := ((10 : ℝ) ^ d - 1) / 0.00715 + 100
      .ok (round1 (if c > 100 then e else c))

/-- Model of `compute_vi_from_v40_v100` (lines 102-170).  In the low-viscosity branch
the two `math.log10` chains raise when `U + 0.7 ≤ 1` or `Y + 0.7 ≤ 1`. -/
def compute_vi_from_v40_v100 (u y : ℝ) : VIResult :=
  let U := u
  let Y := y
  if U ≤ 0 ∨ Y ≤ 0 then .nanr
  else if Y < 2 then
    if U + 0.7 ≤ 1 ∨ Y + 0.7 ≤ 1 then .exc
    else
      let logU := walther_x U
      let logY := walther_x Y
      let AJ5 := 10 ^ ((10 : ℝ) ^ (logU + (logU - logY) * 0.04022)) - 0.7
      let AJ6 := 10 ^ ((10 : ℝ) ^ (logU + (logU - logY) * 0.98316)) - 0.7
      let numerator := 1.2665 * AJ6 ^ 2 + 1.655 * AJ6 - AJ5
      let denominator := 0.34984 * AJ6 ^ 2 + 0.1725 * AJ6
      if denominator = 0 then .nanr
      else .ok (round1 (100 * numerator / denominator))
  else if Y < 4 then compute_piece U Y (bandA1 Y) (bandB1 Y)
  else if Y < 6.1 then compute_piece U Y (bandA2 Y) (bandB2 Y)
  else if Y < 7.2 then compute_piece U Y (bandA3 Y) (bandB3 Y)
  else if Y < 12.4 then compute_piece U Y (bandA4 Y) (bandB4 Y)
  else if Y < 70 then compute_piece U Y (bandA5 Y) (bandB5 Y)
  else compute_piece U Y (bandA6 Y) (bandB6 Y)

/-- For `U > 0`, `Y ≥ 2` the VI computation reduces to the band dispatch. -/
lemma compute_vi_eq_band (U Y : ℝ) (hU : 0 < U) (hY : 2 ≤ Y) :
    compute_vi_from_v40_v100 U Y =
      if Y < 4 then compute_piece U Y (bandA1 Y) (bandB1 Y)
      else if Y < 6.1 then compute_piece U Y (bandA2 Y) (bandB2 Y)
      else if Y < 7.2 then compute_piece U Y (bandA3 Y) (bandB3 Y)
      else if Y < 12.4 then compute_piece U Y (bandA4 Y) (bandB4 Y)
      else if Y < 70 then compute_piece U Y (bandA5 Y) (bandB5 Y)
      else compute_piece U Y (bandA6 Y) (bandB6 Y) := by
  unfold compute_vi_from_v40_v100
  rw [if_neg (by push_neg; exact ⟨hU, by linarith⟩), if_neg (not_lt.mpr hY)]

/-- C3: VI band routing — for every `v40 = U > 0` and `Y = v100 ≥ 2`, the
engine applies exactly the band formula whose documented half-open interval
contains `Y`; in particular `Y = 4` is evaluated with the `[4, 6.1)` band's
coefficients and `Y = 2` is routed to the `[2, 4)` polynomial band rather
than the low-viscosity AJ branch. -/
theorem vi_band_routing (U Y : ℝ) (hU : 0 < U) (hY : 2 ≤ Y) :
    (Y < 4 → compute_vi_from_v40_v100 U Y = compute_piece U Y (bandA1 Y) (bandB1 Y)) ∧
    (4 ≤ Y → Y < 6.1 → compute_vi_from_v40_v100 U Y = compute_piece U Y (bandA2 Y) (bandB2 Y)) ∧
    (6.1 ≤ Y → Y < 7.2 → compute_vi_from_v40_v100 U Y = compute_piece U Y (bandA3 Y) (bandB3 Y)) ∧
    (7.2 ≤ Y → Y < 12.4 → compute_vi_from_v40_v100 U Y = compute_piece U Y (bandA4 Y) (bandB4 Y)) ∧
    (12.4 ≤ Y → Y < 70 → compute_vi_from_v40_v100 U Y = compute_piece U Y (bandA5 Y) (bandB5 Y)) ∧
    (70 ≤ Y → compute_vi_from_v40_v100 U Y = compute_piece U Y (bandA6 Y) (bandB6 Y)) ∧
    compute_vi_from_v40_v100 U 2 = compute_piece U 2 (bandA1 2) (bandB1 2) ∧
    compute_vi_from_v40_v100 U 4 = compute_piece U 4 (bandA2 4) (bandB2 4) := by
  refine ⟨?_, ?_, ?_, ?_, ?_, ?_, ?_, ?_⟩
  · intro h4
    rw [compute_vi_eq_band U Y hU hY, if_pos h4]
  · intro h4 h61
    rw [compute_vi_eq_band U Y hU hY, if_neg (not_lt.mpr h4), if_pos h61]
  · intro h61 h72
    rw [compute_vi_eq_band U Y hU hY, if_neg (not_lt.mpr (by linarith)),
      if_neg (not_lt.mpr h61), if_pos h72]
  · intro h72 h124
    rw [compute_vi_eq_band U Y hU hY, if_neg (not_lt.mpr (by linarith)),
      if_neg (not_lt.mpr (by linarith)), if_neg (not_lt.mpr h72), if_pos h124]
  · intro h124 h70
    rw [compute_vi_eq_band U Y hU hY, if_neg (not_lt.mpr (by linarith)),
      if_neg (not_lt.mpr (by linarith)), if_neg (not_lt.mpr (by linarith)),
      if_neg (not_lt.mpr h124), if_pos h70]
  · intro h70
    rw [compute_vi_eq_band U Y hU hY, if_neg (not_lt.mpr (by linarith)),
      if_neg (not_lt.mpr (by linarith)), if_neg (not_lt.mpr (by linarith)),
      if_neg (not_lt.mpr (by linarith)), if_neg (not_lt.mpr (by linarith))]
  · rw [compute_vi_eq_band U 2 hU (le_refl 2), if_pos (by norm_num)]
  · rw [compute_vi_eq_band U 4 hU (by norm_num), if_neg (by norm_num), if_pos (by norm_num)]

theorem vi_band_routing_witness :
    compute_vi_from_v40_v100 10 3 = compute_piece 10 3 (bandA1 3) (bandB1 3) ∧
    compute_vi_from_v40_v100 10 4 = compute_piece 10 4 (bandA2 4) (bandB2 4) ∧
    compute_vi_from_v40_v100 10 2 = compute_piece 10 2 (bandA1 2) (bandB1 2) :=
  ⟨(vi_band_routing 10 3 (by norm_num) (by norm_num)).1 (by norm_num),
   (vi_band_routing 10 3 (by norm_num) (by norm_num)).2.2.2.2.2.2.2,
   (vi_band_routing 10 3 (by norm_num) (by norm_num)).2.2.2.2.2.2.1⟩

lemma bandB1_pos (Y : ℝ) (hY : 2 ≤ Y) : 0 < bandB1 Y := by
  unfold bandB1
  nlinarith [sq_nonneg (Y - 2)]

lemma rpow_half_eq_of_sq (a b : ℝ) (hb : 0 ≤ b) (hab : b ^ 2 = a) :
    a ^ (0.5 : ℝ) = b := by
  rw [← hab, ← Real.rpow_natCast b 2, ← Real.rpow_mul hb]
  norm_num

lemma bandB2_pos (Y : ℝ) (h4 : 4 ≤ Y) (h61 : Y < 6.1) : 0 < bandB2 Y := by
  have hY0 : (0 : ℝ) ≤ Y := by linarith
  set s := Y ^ (0.5 : ℝ) with hs
  have hs0 : 0 ≤ s := Real.rpow_nonneg hY0 _
  have hs_sq : s ^ 2 = Y := by
    rw [hs, ← Real.rpow_natCast (Y ^ (0.5 : ℝ)) 2, ← Real.rpow_mul hY0]
    norm_num
  have h4s : (4 : ℝ) ^ (0.5 : ℝ) = 2 :=
    rpow_half_eq_of_sq 4 2 (by norm_num) (by norm_num)
  have h61s : (6.1009 : ℝ) ^ (0.5 : ℝ) = 2.47 :=
    rpow_half_eq_of_sq 6.1009 2.47 (by norm_num) (by norm_num)
  have hs2 : 2 ≤ s := by
    rw [← h4s, hs]
    exact Real.rpow_le_rpow (by norm_num) h4 (by norm_num)
  have hs47 : s ≤ 2.47 := by
    rw [← h61s, hs]
    exact Real.rpow_le_rpow hY0 (by linarith) (by norm_num)
  have h2' : 0 ≤ s - 2 := by linarith
  have h47' : 0 ≤ 2.47 - s := by linarith
  unfold bandB2
  rw [← hs, ← hs_sq]
  nlinarith [mul_nonneg h2' h47', sq_nonneg (s - 2), mul_nonneg (mul_nonneg h2' h2') h47',
    mul_nonneg (mul_nonneg (mul_nonneg h2' h2') h47') hs0,
    mul_nonneg (mul_nonneg h2' h47') h47', mul_nonneg (mul_nonneg h2' h2') h2']

lemma bandB3_pos (Y : ℝ) : 0 < bandB3 Y := by
  unfold bandB3
  nlinarith [sq_nonneg (5.676 * Y - 27.35)]

lemma bandB4_pos (Y : ℝ) (hY : 7.2 ≤ Y) : 0 < bandB4 Y := by
  unfold bandB4
  nlinarith [sq_nonneg (Y - 7.2)]

lemma bandB5_pos (Y : ℝ) : 0 < bandB5 Y := by
  unfold bandB5
  nlinarith [sq_nonneg (1.399 * Y - 1.19)]

lemma bandB6_pos (Y : ℝ) (hY : 70 ≤ Y) : 0 < bandB6 Y := by
  unfold bandB6
  nlinarith [sq_nonneg (Y - 70)]

/-- With a nonzero `b` and `Y > 1` the piece evaluator cannot raise. -/
lemma compute_piece_ne_exc (U Y a b : ℝ) (hb : b ≠ 0) (hY : 1 < Y) :
    compute_piece U Y a b ≠ VIResult.exc := by
  have hlog : Real.log Y ≠ 0 := ne_of_gt (Real.log_pos hY)
  unfold compute_piece
  rw [if_neg hb]
  split_ifs <;> simp_all

/-- C9: VI band division safety — on every band of the `Y ≥ 2` regime the
band's `b(Y)` function is strictly positive on its half-open interval, so
the division `c = 100*(a+b-U)/b` inside `compute_piece` never divides by
zero, and for `U > 0` the VI computation never raises. -/
theorem vi_band_b_positive (Y : ℝ) (hY : 2 ≤ Y) :
    (Y < 4 → 0 < bandB1 Y) ∧
    (4 ≤ Y → Y < 6.1 → 0 < bandB2 Y) ∧
    (6.1 ≤ Y → Y < 7.2 → 0 < bandB3 Y) ∧
    (7.2 ≤ Y → Y < 12.4 → 0 < bandB4 Y) ∧
    (12.4 ≤ Y → Y < 70 → 0 < bandB5 Y) ∧
    (70 ≤ Y → 0 < bandB6 Y) ∧
    (∀ U, 0 < U → compute_vi_from_v40_v100 U Y ≠ VIResult.exc) := by
  have hY1 : (1 : ℝ) < Y := by linarith
  refine ⟨fun _ => bandB1_pos Y hY, fun h4 h61 => bandB2_pos Y h4 h61,
    fun _ _ => bandB3_pos Y, fun h72 _ => bandB4_pos Y h72,
    fun _ _ => bandB5_pos Y, fun h70 => bandB6_pos Y h70, ?_⟩
  intro U hU
  rw [compute_vi_eq_band U Y hU hY]
  split_ifs with h1 h2 h3 h4 h5
  · exact compute_piece_ne_exc U Y _ _ (ne_of_gt (bandB1_pos Y hY)) hY1
  · exact compute_piece_ne_exc U Y _ _ (ne_of_gt (bandB2_pos Y (by linarith) h2)) hY1
  · exact compute_piece_ne_exc U Y _ _ (ne_of_gt (bandB3_pos Y)) hY1
  · exact compute_piece_ne_exc U Y _ _ (ne_of_gt (bandB4_pos Y (by linarith))) hY1
  · exact compute_piece_ne_exc U Y _ _ (ne_of_gt (bandB5_pos Y)) hY1
  · exact compute_piece_ne_exc U Y _ _ (ne_of_gt (bandB6_pos Y (by linarith))) hY1

theorem vi_band_b_positive_witness :
    0 < bandB1 3 ∧ compute_vi_from_v40_v100 10 3 ≠ VIResult.exc :=
  ⟨(vi_band_b_positive 3 (by norm_num)).1 (by norm_num),
   (vi_band_b_positive 3 (by norm_num)).2.2.2.2.2.2 10 (by norm_num)⟩

/-! ### The mixture blender (claim C8) -/

/-- How the component loop of `compute_mixture` can stop early: returning
`float('nan')` for a non-positive viscosity, or raising `ValueError` from
`math.log10` for a viscosity in `(0, 0.3]`. -/
inductive MixStop where
  | nanStop
  | excStop

/-- The loop at lines 187-193 building the Walther coordinates of the
components, processing the list left to right. -/
def mixture_xs : List ℝ → Except MixStop (List ℝ)
  | [] => Except.ok []
  | v :: rest =>
    if v ≤ 0 then Except.error MixStop.nanStop
    else if v + 0.7 ≤ 1 then Except.error MixStop.excStop
    else
      match mixture_xs rest with
      | Except.error e => Except.error e
      | Except.ok xs => Except.ok (walther_x v :: xs)

/-- Model of `compute_mixture` (lines 173-199): the Walther-weighted blend of
component viscosities. -/
def compute_mixture (viscosities fractions : List ℝ) : VIResult :=
  if viscosities = [] ∨ fractions = [] ∨ viscosities.length ≠ fractions.length then .nanr
  else
    match mixture_xs viscosities with
    | Except.error MixStop.nanStop => .nanr
    | Except.error MixStop.excStop => .exc
    | Except.ok xs =>
      .ok (walther_inverse ((List.zipWith (fun w x => w * x) fractions xs).sum))

lemma mixture_xs_of_pos (l : List ℝ) (hl : ∀ u ∈ l, 0.3 < u) :
    mixture_xs l = Except.ok (l.map walther_x) := by
  induction l with
  | nil => simp [mixture_xs]
  | cons v rest ih =>
    have hv : 0.3 < v := hl v (by simp)
    have h1 : ¬ (v ≤ 0) := by linarith
    have h2 : ¬ (v + 0.7 ≤ 1) := by linarith
    rw [mixture_xs, if_neg h1, if_neg h2, ih (fun u hu => hl u (by simp [hu]))]
    simp

lemma zipWith_mul_map_const (fs : List ℝ) (c : ℝ) :
    List.zipWith (fun w x => w * x) fs (fs.map fun _ => c) = fs.map (fun w => w * c) := by
  induction fs with
  | nil => simp
  | cons w rest ih => simp only [List.map_cons, List.zipWith_cons_cons, ih]

lemma sum_map_mul_const (fs : List ℝ) (c : ℝ) :
    (fs.map (fun w => w * c)).sum = fs.sum * c := by
  induction fs with
  | nil => simp
  | cons w rest ih => simp [ih, add_mul]

/-- C8 (amended to viscosities `> 0.3`): blending components that all have
the same viscosity `v > 0.3`, with any non-empty fraction list summing
to 1, returns exactly `v`.  (For `v ∈ (0, 0.3]` the code instead raises —
see `compute_mixture_low_viscosity_cx`.) -/
theorem mixture_blend_identity (fs : List ℝ) (v : ℝ) (hv : 0.3 < v)
    (hne : fs ≠ []) (hsum : fs.sum = 1) :
    compute_mixture (fs.map fun _ => v) fs = VIResult.ok v := by
  have hlen : (fs.map fun _ => v).length = fs.length := by simp
  have hmapne : fs.map (fun _ => v) ≠ [] := by
    simpa using hne
  have hxs : mixture_xs (fs.map fun _ => v) = Except.ok ((fs.map fun _ => v).map walther_x) :=
    mixture_xs_of_pos _ (by intro u hu; rcases List.mem_map.mp hu with ⟨w, _, rfl⟩; exact hv)
  unfold compute_mixture
  rw [if_neg (by push_neg; exact ⟨hmapne, hne, hlen⟩), hxs]
  have hmm : ((fs.map fun _ => v).map walther_x) = fs.map fun _ => walther_x v := by
    simp
  rw [hmm]
  show VIResult.ok
      (walther_inverse (List.zipWith (fun w x => w * x) fs (fs.map fun _ => walther_x v)).sum)
    = VIResult.ok v
  rw [zipWith_mul_map_const, sum_map_mul_const, hsum, one_mul,
    inverse_walther_x v hv]

theorem mixture_blend_identity_witness :
    compute_mixture ([(0.4 : ℝ), 0.6].map fun _ => 10) [(0.4 : ℝ), 0.6] = VIResult.ok 10 :=
  mixture_blend_identity [(0.4 : ℝ), 0.6] 10 (by norm_num) (by simp) (by norm_num)

/-- C8 counterexample to the claim as stated: the viscosity `0.2` is
positive and the fraction list `[1]` is non-empty and sums to 1, yet the
blend does not return `0.2` — the `math.log10` call raises (uncaught in
`compute_mixture`), because `0.2 + 0.7 ≤ 1`. -/
theorem compute_mixture_low_viscosity_cx :
    (0 : ℝ) < 0.2 ∧ [(1 : ℝ)].sum = 1 ∧
      compute_mixture [(0.2 : ℝ)] [(1 : ℝ)] = VIResult.exc := by
  refine ⟨by norm_num, by simp, ?_⟩
  norm_num [compute_mixture, mixture_xs]

/-! ### The `/api/mix2` endpoint (claim C5) -/

/-- The loop over `knownComponents` (lines 303-315), accumulating
`(sum_known, x_known_sum)`; errors are returned responses, `crash` models
the uncaught `ValueError` from `math.log10` for a viscosity in `(0, 0.3]`. -/
def mix2_accum : List (ℝ × ℝ) → ℝ → ℝ → Except (ApiOutcome (ℝ × ℝ)) (ℝ × ℝ)
  | [], s, x => Except.ok (s, x)
  | (p, v) :: rest, s, x =>
    if p < 0 then Except.error (ApiOutcome.clientError "Percentages must be non-negative")
    else if v ≤ 0 then Except.error (ApiOutcome.clientError "Viscosities must be positive")
    else if v + 0.7 ≤ 1 then Except.error ApiOutcome.crash
    else mix2_accum rest (s + p / 100) (x + p / 100 * walther_x v)

/-- Model of `api_mix2` (lines 288-346) on numeric inputs: solves for the two base
percentages.  Note that `p_A_percent`/`p_B_percent` are computed at lines
335-336 from the *unclamped* fractions; the clamp at lines 341-342 only
feeds the feasibility re-check at line 344. -/
def api_mix2 (target baseA baseB : ℝ) (known : List (ℝ × ℝ)) : ApiOutcome (ℝ × ℝ) :=
  match mix2_accum known 0 0 with
  | Except.error e => e
  | Except.ok (sum_known, x_known_sum) =>
    if 1 ≤ sum_known then .clientError "Sum of known percentages must be less than 100"
    else if target ≤ 0 ∨ baseA ≤ 0 ∨ baseB ≤ 0 then .clientError "Viscosities must be positive"
    else if target + 0.7 ≤ 1 then .crash
    else if baseA + 0.7 ≤ 1 then .crash
    else if baseB + 0.7 ≤ 1 then .crash
    else
      let x_target := walther_x target
      let x_A := walther_x baseA
      let x_B := walther_x baseB
      let p_remaining := 1 - sum_known
      if |x_A - x_B| < 1e-12 then .clientError "Base viscosities must be different"
      else
        let p_A := (x_target - x_known_sum - p_remaining * x_B) / (x_A - x_B)
        let p_B := p_remaining - p_A
        let p_A_percent := p_A * 100
        let p_B_percent := p_B * 100
        if p_A < -1e-6 ∨ p_B < -1e-6 then
          .clientError "Impossible to obtain this viscosity with these two bases"
        else
          let p_A2 := if p_A < 0 then (0 : ℝ) else p_A
          let p_B2 := if p_B < 0 then (0 : ℝ) else p_B
          if p_A2 + p_B2 > p_remaining + 1e-6 then
            .clientError "Impossible to obtain this viscosity with these two bases"
          else .ok (p_A_percent, p_B_percent)

/-- The inverse transform always produces a value `> 0.3`. -/
lemma walther_inverse_gt (x : ℝ) : 0.3 < walther_inverse x := by
  have h1 : (0 : ℝ) < (10 : ℝ) ^ x := Real.rpow_pos_of_pos (by norm_num) x
  have h2 : (1 : ℝ) < (10 : ℝ) ^ ((10 : ℝ) ^ x) :=
    (Real.one_lt_rpow_iff_of_pos (by norm_num)).mpr (Or.inl ⟨by norm_num, h1⟩)
  unfold walther_inverse
  linarith

/-- The forward transform inverts the inverse transform on all of ℝ. -/
lemma walther_x_inverse (x : ℝ) : walther_x (walther_inverse x) = x := by
  unfold walther_x walther_inverse
  rw [sub_add_cancel, Real.logb_rpow (by norm_num) (by norm_num),
    Real.logb_rpow (by norm_num) (by norm_num)]

/-- C5: the two-component solver succeeds on this input with the solved
fraction `p_A = -5e-7 ∈ [-1e-6, 0)` — the tolerance regime the claim says
is clamped to 0 — yet the returned `percentA` is the *negative* value
`-5e-5`, because the percentages are computed from the unclamped fractions
(lines 335-336 run before the clamp at lines 341-342). -/
theorem api_mix2_unclamped_percent :
    (-1e-6 : ℝ) ≤ -(5e-7) ∧ (-(5e-7) : ℝ) < 0 ∧ (-(5e-5) : ℝ) < 0 ∧
      api_mix2 (walther_inverse (-(5e-7))) (walther_inverse 1) (walther_inverse 0) []
        = ApiOutcome.ok (-(5e-5), 100.00005) := by
  refine ⟨by norm_num, by norm_num, by norm_num, ?_⟩
  have hT := walther_inverse_gt (-(5e-7))
  have hA := walther_inverse_gt 1
  have hB := walther_inverse_gt 0
  have hxT : walther_x (walther_inverse (-(5e-7))) = -(5e-7) := walther_x_inverse _
  have hxA : walther_x (walther_inverse 1) = 1 := walther_x_inverse _
  have hxB : walther_x (walther_inverse 0) = 0 := walther_x_inverse _
  simp only [api_mix2, mix2_accum, hxT, hxA, hxB]
  rw [if_neg (by norm_num : ¬ ((1 : ℝ) ≤ 0)),
    if_neg (by push_neg; refine ⟨by linarith, by linarith, by linarith⟩ :
      ¬ (walther_inverse (-(5e-7)) ≤ 0 ∨ walther_inverse 1 ≤ 0 ∨ walther_inverse 0 ≤ 0)),
    if_neg (by linarith : ¬ (walther_inverse (-(5e-7)) + 0.7 ≤ 1)),
    if_neg (by linarith : ¬ (walther_inverse 1 + 0.7 ≤ 1)),
    if_neg (by linarith : ¬ (walther_inverse 0 + 0.7 ≤ 1))]
  norm_num

/-! ### The general mixture solver (claims C6, C7, C10) -/

/-- A component record of a `/api/solver` request (numeric fields already
decoded; a missing key is `none`). -/
structure SComponent where
  viscosity : Option ℝ
  ctype : Option String
  value : Option ℝ
  minv : Option ℝ
  maxv : Option ℝ

/-- The `mixture` record of a `/api/solver` request. -/
structure MixInfo where
  mtype : Option String
  value : Option ℝ
  minv : Option ℝ
  maxv : Option ℝ

/-- The single optimisation objective: a component fraction (indexed into
the variable vector) or the mixture viscosity, each minimised or maximised. -/
inductive ObjSpec where
  | ofComponent (j : ℕ) (minimize : Bool)
  | ofMixture (minimize : Bool)

/-- Accumulator of the classification loop (lines 380-440): fixed
fractions with their component indices, their sums, and the variable
components' bounds, Walther coordinates, original indices, and the
objective declared so far. -/
structure ParseState where
  fixed_fractions : List (ℕ × ℝ)
  fixed_x_contrib : ℝ
  fixed_sum : ℝ
  var_bounds : List (ℝ × ℝ)
  x_values : List ℝ
  var_indices : List ℕ
  objective : Option ObjSpec

def initParseState : ParseState := ⟨[], 0, 0, [], [], [], none⟩

/-- Lines 424-427: append a variable component. -/
def addVar (st : ParseState) (idx : ℕ) (x lb ub : ℝ) : ParseState :=
  { st with var_indices := st.var_indices ++ [idx],
            x_values := st.x_values ++ [x],
            var_bounds := st.var_bounds ++ [(lb, ub)] }

/-- Body of the classification loop (lines 386-440) for component number
`idx`.  A viscosity in `(0, 0.3]` makes `math.log10` raise at line 392;
`api_solver` catches every exception and returns its message, so this is
modelled as an error string as well. -/
def parse_component (idx : ℕ) (comp : SComponent) (st : ParseState) :
    Except String ParseState :=
  match comp.viscosity with
  | none => .error ("Component " ++ toString (idx + 1) ++ " viscosity must be positive")
  | some v =>
    if v ≤ 0 then .error ("Component " ++ toString (idx + 1) ++ " viscosity must be positive")
    else if v + 0.7 ≤ 1 then .error "math domain error"
    else
      let x_i := walther_x v
      let ctype := comp.ctype.getD "free"
      if ctype = "fixed" ∨ ctype = "setValue" then
        match comp.value with
        | none => .error ("Component " ++ toString (idx + 1) ++ " fixed value missing")
        | some val =>
          let p := val / 100
          if p < 0 ∨ p > 1 then
            .error ("Component " ++ toString (idx + 1) ++ " fixed value must be between 0 and 100")
          else .ok { st with fixed_sum := st.fixed_sum + p,
                             fixed_x_contrib := st.fixed_x_contrib + p * x_i,
                             fixed_fractions := st.fixed_fractions ++ [(idx, p)] }
      else if ctype = "range" then
        match comp.minv, comp.maxv with
        | some mn, some mx =>
          let lb := mn / 100
          let ub := mx / 100
          if lb < 0 ∨ ub > 1 ∨ lb > ub then
            .error ("Component " ++ toString (idx + 1) ++ " range is invalid")
          else .ok (addVar st idx x_i lb ub)
        | _, _ => .error ("Component " ++ toString (idx + 1) ++ " range requires min and max")
      else if ctype = "objectiveMin" then
        if st.objective.isSome then .error "Multiple objectives not allowed"
        else .ok { addVar st idx x_i 0 1 with
                   objective := some (ObjSpec.ofComponent st.var_indices.length true) }
      else if ctype = "objectiveMax" then
        if st.objective.isSome then .error "Multiple objectives not allowed"
        else .ok { addVar st idx x_i 0 1 with
                   objective := some (ObjSpec.ofComponent st.var_indices.length false) }
      else .ok (addVar st idx x_i 0 1)

/-- The classification loop over all components (line 386). -/
def parse_components (comps : List SComponent) : Except String ParseState :=
  comps.enum.foldlM (fun st p => parse_component p.1 p.2 st) initParseState

/-- The mixture pass (lines 442-473): merges a mixture objective into the
objective slot and extracts the `setValue` / `range` constraint values. -/
def parse_mixture (mix : MixInfo) (objective : Option ObjSpec) :
    Except String (Option ObjSpec × Option ℝ × Option ℝ × Option ℝ) :=
  let mtype := mix.mtype.getD "free"
  if mtype = "objectiveMin" ∨ mtype = "objectiveMax" then
    if objective.isSome then .error "Multiple objectives not allowed"
    else .ok (some (ObjSpec.ofMixture (mtype = "objectiveMin")), none, none, none)
  else if mtype = "setValue" then
    match mix.value with
    | none => .error "Mixture set value missing"
    | some v =>
      if v ≤ 0 then .error "Mixture viscosity must be positive"
      else .ok (objective, some v, none, none)
  else if mtype = "range" then
    match mix.minv, mix.maxv with
    | some mn, some mx =>
      if mn ≤ 0 ∨ mx ≤ 0 ∨ mn > mx then .error "Mixture range is invalid"
      else .ok (objective, none, some mn, some mx)
    | _, _ => .error "Mixture range requires min and max"
  else .ok (objective, none, none, none)

/-- A linear program as assembled at lines 492-552: objective vector,
inequality rows, equality rows and per-variable bounds. -/
structure LPProblem where
  c : List ℝ
  A_ub : List (List ℝ)
  b_ub : List ℝ
  A_eq : List (List ℝ)
  b_eq : List ℝ
  bounds : List (ℝ × ℝ)

/-- Dot product of two coefficient lists. -/
def dot (u v : List ℝ) : ℝ := (List.zipWith (fun a b => a * b) u v).sum

/-- LP assembly (lines 492-552).  The `forward` transforms of the mixture
constraint values (lines 504, 511, 517) can raise for values in
`(0, 0.3]`; `api_solver` catches this into an error response. -/
def build_lp (st : ParseState) (obj : Option ObjSpec) (msv mrmin mrmax : Option ℝ) :
    Except String LPProblem :=
  let m := st.var_indices.length
  let c : List ℝ :=
    match obj with
    | some (ObjSpec.ofMixture true) => st.x_values
    | some (ObjSpec.ofMixture false) => st.x_values.map (fun x => -x)
    | some (ObjSpec.ofComponent j true) =>
      (List.range m).map (fun k => if k = j then (1 : ℝ) else 0)
    | some (ObjSpec.ofComponent j false) =>
      (List.range m).map (fun k => if k = j then (-1 : ℝ) else 0)
    | none => List.replicate m 0
  match msv with
  | some mv =>
    if mv + 0.7 ≤ 1 then .error "math domain error"
    else .ok ⟨c, [], [],
      [List.replicate m 1, st.x_values],
      [1 - st.fixed_sum, walther_x mv - st.fixed_x_contrib], st.var_bounds⟩
  | none =>
    match mrmin, mrmax with
    | some mn, some mx =>
      if mn + 0.7 ≤ 1 then .error "math domain error"
      else if mx + 0.7 ≤ 1 then .error "math domain error"
      else .ok ⟨c,
        [st.x_values.map (fun x => -x), st.x_values],
        [-(walther_x mn - st.fixed_x_contrib), walther_x mx - st.fixed_x_contrib],
        [List.replicate m 1], [1 - st.fixed_sum], st.var_bounds⟩
    | _, _ => .ok ⟨c, [], [], [List.replicate m 1], [1 - st.fixed_sum], st.var_bounds⟩

/-- Python `round(x, 6)` modelled over ℝ. -/
def round6 (x : ℝ) : ℝ := (round (x * 1000000) : ℤ) / 1000000

/-- Result of a successful solve: the percentage of each component keyed by
its index, and the blended viscosity. -/
structure SolveResult where
  fractions : List (ℕ × ℝ)
  viscosity : ℝ

/-- Post-solve assembly (lines 557-577): write the fixed and solved
fractions into a zero vector by index, reject fractions below `-1e-6`,
renormalize when the sum drifts from 1 by more than `1e-6`, and return
percentages rounded to 6 decimals together with the blend viscosity. -/
def post_solve (n : ℕ) (st : ParseState) (xs : List ℝ) : Except String SolveResult :=
  let base := st.fixed_fractions.foldl (fun l ip => l.set ip.1 ip.2) (List.replicate n (0 : ℝ))
  let fractions := (st.var_indices.zip xs).foldl (fun l ip => l.set ip.1 ip.2) base
  if ∃ f ∈ fractions, f < -1e-6 then .error "Solution contains negative fractions"
  else
    let total := fractions.sum
    let fractions2 := if |total - 1| > 1e-6 then fractions.map (fun f => f / total) else fractions
    let x_total := st.fixed_x_contrib + (List.zipWith (fun r x => r * x) xs st.x_values).sum
    .ok ⟨fractions2.enum.map (fun p => (p.1, round6 (p.2 * 100))), walther_inverse x_total⟩

/-- Model of `solve_general_mixture` (lines 349-577).  The external `linprog` call
(line 554) is the `oracle` parameter: `none` models `res.success = False`,
`some xs` models a successful solve with variable values `xs`. -/
def solve_general_mixture (comps : List SComponent) (mix : MixInfo)
    (oracle : LPProblem → Option (List ℝ)) : Except String SolveResult :=
  if comps.length = 0 then .error "No components supplied"
  else
    match parse_components comps with
    | .error e => .error e
    | .ok st =>
      match parse_mixture mix st.objective with
      | .error e => .error e
      | .ok (_obj, msv, mrmin, mrmax) =>
        if st.fixed_sum > 1 + 1e-9 then .error "Sum of fixed component fractions exceeds 100%"
        else if st.var_indices.length = 0 then
          if |st.fixed_sum - 1| > 1e-6 then .error "Sum of fixed components must be exactly 100%"
          else
            let v_mix := walther_inverse st.fixed_x_contrib
            match msv with
            | some mv =>
              if |v_mix - mv| > 1e-6 then .error "Mixture viscosity does not match target value"
              else .ok ⟨st.fixed_fractions.map (fun ip => (ip.1, ip.2 * 100)), v_mix⟩
            | none =>
              match mrmin, mrmax with
              | some mn, some mx =>
                if v_mix < mn - 1e-6 ∨ v_mix > mx + 1e-6 then
                  .error "Mixture viscosity not within specified range"
                else .ok ⟨st.fixed_fractions.map (fun ip => (ip.1, ip.2 * 100)), v_mix⟩
              | _, _ => .ok ⟨st.fixed_fractions.map (fun ip => (ip.1, ip.2 * 100)), v_mix⟩
        else
          match build_lp st _obj msv mrmin mrmax with
          | .error e => .error e
          | .ok prob =>
            match oracle prob with
            | none => .error "No feasible solution found"
            | some xs => post_solve comps.length st xs

/-- C10: default role classification — a component whose `type` field is
absent or is not one of the recognized role names is classified as a free
variable with bounds `[0, 1]` (accepted, not rejected), and a component
typed `setValue` is parsed exactly like one typed `fixed`. -/
theorem solver_role_classification :
    (∀ (idx : ℕ) (c : SComponent) (st : ParseState) (v : ℝ),
      c.viscosity = some v → 0 < v → 1 < v + 0.7 →
      c.ctype.getD "free" ∉
        (["fixed", "setValue", "range", "objectiveMin", "objectiveMax"] : List String) →
      parse_component idx c st = .ok (addVar st idx (walther_x v) 0 1)) ∧
    (∀ (idx : ℕ) (c : SComponent) (st : ParseState),
      parse_component idx { c with ctype := some "setValue" } st
        = parse_component idx { c with ctype := some "fixed" } st) := by
  constructor
  · intro idx c st v hv hv1 hv2 ht
    simp only [List.mem_cons, List.mem_singleton] at ht
    push_neg at ht
    obtain ⟨h1, h2, h3, h4, h5, _⟩ := ht
    simp only [parse_component, hv]
    rw [if_neg (not_le.mpr hv1), if_neg (by linarith), if_neg (by tauto),
      if_neg h3, if_neg h4, if_neg h5]
  · intro idx c st
    cases hcv : c.viscosity <;>
      simp [parse_component, hcv]

theorem solver_role_classification_witness :
    parse_component 0 ⟨some 10, some "banana", none, none, none⟩ initParseState
      = Except.ok (addVar initParseState 0 (walther_x 10) 0 1) ∧
    parse_component 0 ⟨some 10, some "setValue", some 40, none, none⟩ initParseState
      = parse_component 0 ⟨some 10, some "fixed", some 40, none, none⟩ initParseState :=
  ⟨solver_role_classification.1 0 ⟨some 10, some "banana", none, none, none⟩
      initParseState 10 rfl (by norm_num) (by norm_num) (by decide),
   solver_role_classification.2 0 ⟨some 10, some "ignored", some 40, none, none⟩ initParseState⟩

/-- The numeric `value` of a component (its fixed percentage). -/
def fixedVal (c : SComponent) : ℝ := c.value.getD 0

/-- The numeric viscosity of a component. -/
def compVisc (c : SComponent) : ℝ := c.viscosity.getD 0

/-- Sum of the fixed fractions `value/100` over a component list. -/
def fixedSumOf (comps : List SComponent) : ℝ :=
  (comps.map (fun c => fixedVal c / 100)).sum

/-- Fixed contribution `Σ p_i · x_i` in the Walther coordinate. -/
def fixedXOf (comps : List SComponent) : ℝ :=
  (comps.map (fun c => fixedVal c / 100 * walther_x (compVisc c))).sum

lemma except_bind_ok {α β : Type} (a : α) (f : α → Except String β) :
    (Except.ok a >>= f) = f a := rfl

/-- A component that the classification loop treats as fixed and accepts. -/
def ValidFixed (c : SComponent) : Prop :=
  (c.ctype = some "fixed" ∨ c.ctype = some "setValue") ∧
    (∃ v, c.viscosity = some v ∧ 0 < v ∧ 1 < v + 0.7) ∧
    (∃ w, c.value = some w ∧ 0 ≤ w ∧ w ≤ 100)

lemma parse_component_fixed (k : ℕ) (c : SComponent) (st : ParseState)
    (hc : ValidFixed c) :
    parse_component k c st = Except.ok
      { st with fixed_sum := st.fixed_sum + fixedVal c / 100,
                fixed_x_contrib := st.fixed_x_contrib + fixedVal c / 100 * walther_x (compVisc c),
                fixed_fractions := st.fixed_fractions ++ [(k, fixedVal c / 100)] } := by
  obtain ⟨htype, ⟨v, hv, hv0, hv7⟩, ⟨w, hw, hw0, hw100⟩⟩ := hc
  have hfv : fixedVal c = w := by simp [fixedVal, hw]
  have hcv : compVisc c = v := by simp [compVisc, hv]
  have hct : c.ctype.getD "free" = "fixed" ∨ c.ctype.getD "free" = "setValue" := by
    rcases htype with h | h <;> simp [h]
  simp only [parse_component, hv]
  rw [if_neg (not_le.mpr hv0), if_neg (by linarith), if_pos hct]
  simp only [hw]
  rw [if_neg (by push_neg; exact ⟨by linarith, by linarith⟩)]
  rw [hfv, hcv]

lemma parse_fixed_fold (cs : List SComponent) (k : ℕ) (st : ParseState)
    (hall : ∀ c ∈ cs, ValidFixed c) :
    (List.enumFrom k cs).foldlM (fun st p => parse_component p.1 p.2 st) st
      = Except.ok
        { st with
          fixed_fractions := st.fixed_fractions
            ++ (List.enumFrom k cs).map (fun p => (p.1, fixedVal p.2 / 100)),
          fixed_sum := st.fixed_sum + (cs.map (fun c => fixedVal c / 100)).sum,
          fixed_x_contrib := st.fixed_x_contrib
            + (cs.map (fun c => fixedVal c / 100 * walther_x (compVisc c))).sum } := by
  induction cs generalizing k st with
  | nil =>
    simp
    rfl
  | cons c rest ih =>
    have hc := hall c (by simp)
    have hrest : ∀ x ∈ rest, ValidFixed x := fun x hx => hall x (by simp [hx])
    show (List.foldlM (fun st p => parse_component p.1 p.2 st) st ((k, c) :: List.enumFrom (k + 1) rest))
      = _
    rw [List.foldlM_cons, parse_component_fixed k c st hc, except_bind_ok, ih (k + 1) _ hrest]
    simp [List.append_assoc, add_assoc]

lemma solve_all_fixed_spec (comps : List SComponent) (mix : MixInfo)
    (oracle : LPProblem → Option (List ℝ))
    (hne : comps ≠ []) (hall : ∀ c ∈ comps, ValidFixed c)
    (hmix : mix.mtype = none ∨ mix.mtype = some "free") :
    (|fixedSumOf comps - 1| ≤ 1e-6 → fixedSumOf comps ≤ 1 + 1e-9 →
      solve_general_mixture comps mix oracle = Except.ok
        ⟨comps.enum.map (fun p => (p.1, fixedVal p.2)), walther_inverse (fixedXOf comps)⟩) ∧
    (1 + 1e-9 < fixedSumOf comps →
      solve_general_mixture comps mix oracle
        = Except.error "Sum of fixed component fractions exceeds 100%") ∧
    (1e-6 < |fixedSumOf comps - 1| →
      ∃ msg, solve_general_mixture comps mix oracle = Except.error msg) := by
  have hlen : ¬ (comps.length = 0) := by simpa [List.length_eq_zero] using hne
  have hparse : parse_components comps = Except.ok
      ⟨comps.enum.map (fun p => (p.1, fixedVal p.2 / 100)), fixedXOf comps,
        fixedSumOf comps, [], [], [], none⟩ := by
    unfold parse_components
    rw [show comps.enum = List.enumFrom 0 comps from rfl,
      parse_fixed_fold comps 0 initParseState hall]
    congr 1
    simp [initParseState, fixedSumOf, fixedXOf, List.enum]
  have hpm : parse_mixture mix none = Except.ok (none, none, none, none) := by
    rcases hmix with h | h <;> simp [parse_mixture, h]
  have hmm : (comps.enum.map (fun p => (p.1, fixedVal p.2 / 100))).map
        (fun ip => (ip.1, ip.2 * 100))
      = comps.enum.map (fun p => (p.1, fixedVal p.2)) := by
    rw [List.map_map]
    apply List.map_congr_left
    intro p _
    simp
  have hmain : solve_general_mixture comps mix oracle =
      (if fixedSumOf comps > 1 + 1e-9 then
        Except.error "Sum of fixed component fractions exceeds 100%"
       else if |fixedSumOf comps - 1| > 1e-6 then
        Except.error "Sum of fixed components must be exactly 100%"
       else Except.ok ⟨comps.enum.map (fun p => (p.1, fixedVal p.2)),
        walther_inverse (fixedXOf comps)⟩) := by
    simp only [solve_general_mixture, hparse, hpm, hmm]
    rw [if_neg hlen]
    simp
  refine ⟨fun h1 h6 => ?_, fun h => ?_, fun h => ?_⟩
  · rw [hmain, if_neg (not_lt.mpr h6), if_neg (not_lt.mpr h1)]
  · rw [hmain, if_pos h]
  · by_cases hgt : 1 + 1e-9 < fixedSumOf comps
    · exact ⟨_, by rw [hmain, if_pos hgt]⟩
    · exact ⟨_, by rw [hmain, if_neg hgt, if_pos h]⟩

/-- C7 (amended): for a request whose components are all fixed (or
`setValue`) and valid, with no mixture `setValue`/`range` constraint, if the
fixed fractions sum to 1 within `1e-6` *and do not exceed 1 by more than
`1e-9`* the solver returns exactly the given fixed values as percents
together with the blend viscosity `inverse(Σ pᵢ·forward(vᵢ))`; if the sum
exceeds `1 + 1e-9` it fails (with the pre-check's message, even inside the
claimed `1e-6` tolerance band), and if the sum is not within `1e-6` of 1 it
fails as well. -/
theorem solver_all_fixed_exact (comps : List SComponent) (mix : MixInfo)
    (oracle : LPProblem → Option (List ℝ))
    (hne : comps ≠ []) (hall : ∀ c ∈ comps, ValidFixed c)
    (hmix : mix.mtype = none ∨ mix.mtype = some "free") :
    (|fixedSumOf comps - 1| ≤ 1e-6 → fixedSumOf comps ≤ 1 + 1e-9 →
      solve_general_mixture comps mix oracle = Except.ok
        ⟨comps.enum.map (fun p => (p.1, fixedVal p.2)), walther_inverse (fixedXOf comps)⟩) ∧
    (1 + 1e-9 < fixedSumOf comps →
      solve_general_mixture comps mix oracle
        = Except.error "Sum of fixed component fractions exceeds 100%") ∧
    (1e-6 < |fixedSumOf comps - 1| →
      ∃ msg, solve_general_mixture comps mix oracle = Except.error msg) :=
  solve_all_fixed_spec comps mix oracle hne hall hmix

theorem solver_all_fixed_exact_witness :
    solve_general_mixture
      [⟨some 10, some "fixed", some 40, none, none⟩,
       ⟨some 10, some "fixed", some 60, none, none⟩]
      ⟨none, none, none, none⟩ (fun _ => none)
    = Except.ok ⟨[(0, 40), (1, 60)], walther_inverse (fixedXOf
        [⟨some 10, some "fixed", some 40, none, none⟩,
         ⟨some 10, some "fixed", some 60, none, none⟩])⟩ := by
  have h := (solver_all_fixed_exact
      [⟨some 10, some "fixed", some 40, none, none⟩,
       ⟨some 10, some "fixed", some 60, none, none⟩]
      ⟨none, none, none, none⟩ (fun _ => none) (by simp)
      (by
        intro c hc
        simp only [List.mem_cons, List.not_mem_nil, or_false] at hc
        rcases hc with rfl | rfl
        · exact ⟨Or.inl rfl, ⟨10, rfl, by norm_num, by norm_num⟩,
            ⟨40, rfl, by norm_num, by norm_num⟩⟩
        · exact ⟨Or.inl rfl, ⟨10, rfl, by norm_num, by norm_num⟩,
            ⟨60, rfl, by norm_num, by norm_num⟩⟩)
      (Or.inl rfl)).1
      (by norm_num [fixedSumOf, fixedVal])
      (by norm_num [fixedSumOf, fixedVal])
  exact h

/-- C7 counterexample to the claim as stated: two valid fixed components
with values 50 and 50.00005 have fractions summing to `1.0000005` — within
the claimed `1e-6` tolerance of 1 — yet the solver does not return them: it
fails at the `fixed_sum > 1 + 1e-9` pre-check (line 475), which runs before
the degenerate branch's own `1e-6` check. -/
theorem solver_all_fixed_sum_cx :
    |fixedSumOf [⟨some 10, some "fixed", some 50, none, none⟩,
        ⟨some 10, some "fixed", some 50.00005, none, none⟩] - 1| ≤ 1e-6 ∧
    solve_general_mixture
      [⟨some 10, some "fixed", some 50, none, none⟩,
       ⟨some 10, some "fixed", some 50.00005, none, none⟩]
      ⟨none, none, none, none⟩ (fun _ => none)
      = Except.error "Sum of fixed component fractions exceeds 100%" := by
  constructor
  · norm_num [fixedSumOf, fixedVal, abs_le]
  · apply (solve_all_fixed_spec _ _ _ (by simp)
      (by
        intro c hc
        simp only [List.mem_cons, List.not_mem_nil, or_false] at hc
        rcases hc with rfl | rfl
        · exact ⟨Or.inl rfl, ⟨10, rfl, by norm_num, by norm_num⟩,
            ⟨50, rfl, by norm_num, by norm_num⟩⟩
        · exact ⟨Or.inl rfl, ⟨10, rfl, by norm_num, by norm_num⟩,
            ⟨50.00005, rfl, by norm_num, by norm_num⟩⟩)
      (Or.inl rfl)).2.1
    norm_num [fixedSumOf, fixedVal]

/-- Invariant of the classification loop after `k` components: the variable
lists are aligned, fixed fractions and variable bounds lie in `[0,1]`,
`fixed_sum` is the sum of the fixed fractions, and the fixed and variable
component indices together are exactly `0, …, k-1`. -/
structure StInv (k : ℕ) (st : ParseState) : Prop where
  len_b : st.var_bounds.length = st.var_indices.length
  len_x : st.x_values.length = st.var_indices.length
  fixed_mem : ∀ p ∈ st.fixed_fractions, 0 ≤ p.2 ∧ p.2 ≤ 1
  bounds_mem : ∀ bd ∈ st.var_bounds, 0 ≤ bd.1 ∧ bd.1 ≤ bd.2 ∧ bd.2 ≤ 1
  sum_eq : st.fixed_sum = (st.fixed_fractions.map Prod.snd).sum
  idx_perm : ((st.fixed_fractions.map Prod.fst) ++ st.var_indices).Perm (List.range k)

lemma stinv_init : StInv 0 initParseState :=
  ⟨rfl, rfl, by simp [initParseState], by simp [initParseState],
    by simp [initParseState], by simp [initParseState]⟩

lemma stinv_addFixed (k : ℕ) (st : ParseState) (hinv : StInv k st) (p x : ℝ)
    (hp0 : 0 ≤ p) (hp1 : p ≤ 1) :
    StInv (k + 1) { st with fixed_sum := st.fixed_sum + p,
                            fixed_x_contrib := st.fixed_x_contrib + p * x,
                            fixed_fractions := st.fixed_fractions ++ [(k, p)] } := by
  refine ⟨hinv.len_b, hinv.len_x, ?_, hinv.bounds_mem, ?_, ?_⟩
  · intro q hq
    simp only [List.mem_append, List.mem_singleton] at hq
    rcases hq with hq | rfl
    · exact hinv.fixed_mem q hq
    · exact ⟨hp0, hp1⟩
  · simp [hinv.sum_eq]
  · have h1 : ((st.fixed_fractions.map Prod.fst ++ [k]) ++ st.var_indices).Perm
        ((st.fixed_fractions.map Prod.fst ++ st.var_indices) ++ [k]) := by
      rw [List.append_assoc, List.append_assoc]
      exact List.Perm.append_left _ List.perm_append_comm
    have h2 := h1.trans (hinv.idx_perm.append (List.Perm.refl [k]))
    have h3 : (List.range k ++ [k]) = List.range (k + 1) := (List.range_succ k).symm
    rw [h3] at h2
    simpa [List.map_append] using h2

lemma stinv_addVar (k : ℕ) (st : ParseState) (hinv : StInv k st) (x lb ub : ℝ)
    (hlb : 0 ≤ lb) (hlbub : lb ≤ ub) (hub : ub ≤ 1) :
    StInv (k + 1) (addVar st k x lb ub) := by
  refine ⟨?_, ?_, hinv.fixed_mem, ?_, hinv.sum_eq, ?_⟩
  · simp [addVar, hinv.len_b]
  · simp [addVar, hinv.len_x]
  · intro bd hbd
    simp only [addVar, List.mem_append, List.mem_singleton] at hbd
    rcases hbd with hbd | rfl
    · exact hinv.bounds_mem bd hbd
    · exact ⟨hlb, hlbub, hub⟩
  · show ((st.fixed_fractions.map Prod.fst) ++ (st.var_indices ++ [k])).Perm _
    rw [← List.append_assoc]
    have h2 := hinv.idx_perm.append (List.Perm.refl [k])
    simpa [List.range_succ] using h2

lemma stinv_set_obj (k : ℕ) (st : ParseState) (o : Option ObjSpec) (h : StInv k st) :
    StInv k { st with objective := o } :=
  ⟨h.len_b, h.len_x, h.fixed_mem, h.bounds_mem, h.sum_eq, h.idx_perm⟩

lemma parse_component_stinv (k : ℕ) (c : SComponent) (st st' : ParseState)
    (hinv : StInv k st) (h : parse_component k c st = Except.ok st') :
    StInv (k + 1) st' := by
  cases hv : c.viscosity with
  | none => simp [parse_component, hv] at h
  | some v =>
    by_cases hv0 : v ≤ 0
    · simp [parse_component, hv, hv0] at h
    · by_cases hv7 : v + 0.7 ≤ 1
      · simp [parse_component, hv, hv0, hv7] at h
      · by_cases hfix : c.ctype.getD "free" = "fixed" ∨ c.ctype.getD "free" = "setValue"
        · cases hval : c.value with
          | none => simp [parse_component, hv, hv0, hv7, hfix, hval] at h
          | some w =>
            by_cases hw : w / 100 < 0 ∨ w / 100 > 1
            · simp [parse_component, hv, hv0, hv7, hfix, hval, hw] at h
            · push_neg at hw
              simp [parse_component, hv, hv0, hv7, hfix, hval,
                not_or.mpr ⟨not_lt.mpr hw.1, not_lt.mpr hw.2⟩] at h
              subst h
              exact stinv_addFixed k st hinv (w / 100) (walther_x v) hw.1 hw.2
        · by_cases hrange : c.ctype.getD "free" = "range"
          · cases hmn : c.minv with
            | none => simp [parse_component, hv, hv0, hv7, hfix, hrange, hmn] at h
            | some mn =>
              cases hmx : c.maxv with
              | none => simp [parse_component, hv, hv0, hv7, hfix, hrange, hmn, hmx] at h
              | some mx =>
                by_cases hbad : mn / 100 < 0 ∨ mx / 100 > 1 ∨ mn / 100 > mx / 100
                · simp [parse_component, hv, hv0, hv7, hfix, hrange, hmn, hmx, hbad] at h
                · push_neg at hbad
                  simp [parse_component, hv, hv0, hv7, hfix, hrange, hmn, hmx,
                    not_or.mpr ⟨not_lt.mpr hbad.1,
                      not_or.mpr ⟨not_lt.mpr hbad.2.1, not_lt.mpr hbad.2.2⟩⟩] at h
                  subst h
                  exact stinv_addVar k st hinv (walther_x v) (mn / 100) (mx / 100)
                    hbad.1 hbad.2.2 hbad.2.1
          · by_cases homin : c.ctype.getD "free" = "objectiveMin"
            · by_cases hobj : st.objective.isSome
              · simp [parse_component, hv, hv0, hv7, hfix, hrange, homin, hobj] at h
              · simp [parse_component, hv, hv0, hv7, hfix, hrange, homin, hobj] at h
                subst h
                exact stinv_set_obj (k + 1) _ _
                  (stinv_addVar k st hinv (walther_x v) 0 1 le_rfl zero_le_one le_rfl)
            · by_cases homax : c.ctype.getD "free" = "objectiveMax"
              · by_cases hobj : st.objective.isSome
                · simp [parse_component, hv, hv0, hv7, hfix, hrange, homin, homax, hobj] at h
                · simp [parse_component, hv, hv0, hv7, hfix, hrange, homin, homax, hobj] at h
                  subst h
                  exact stinv_set_obj (k + 1) _ _
                    (stinv_addVar k st hinv (walther_x v) 0 1 le_rfl zero_le_one le_rfl)
              · simp [parse_component, hv, hv0, hv7, hfix, hrange, homin, homax] at h
                subst h
                exact stinv_addVar k st hinv (walther_x v) 0 1 le_rfl zero_le_one le_rfl

lemma parse_fold_stinv (cs : List SComponent) :
    ∀ (k : ℕ) (st0 st1 : ParseState), StInv k st0 →
      (List.enumFrom k cs).foldlM (fun st p => parse_component p.1 p.2 st) st0
        = Except.ok st1 →
      StInv (k + cs.length) st1 := by
  induction cs with
  | nil =>
    intro k st0 st1 h0 hh
    simp only [List.enumFrom, List.foldlM] at hh
    cases hh
    simpa using h0
  | cons c cs ih =>
    intro k st0 st1 h0 hh
    rw [show List.enumFrom k (c :: cs) = (k, c) :: List.enumFrom (k + 1) cs from rfl,
      List.foldlM_cons] at hh
    cases hpc : parse_component k c st0 with
    | error e =>
      rw [hpc, show (Except.error e >>= fun st =>
        (List.enumFrom (k + 1) cs).foldlM (fun st p => parse_component p.1 p.2 st) st)
          = (Except.error e : Except String ParseState) from rfl] at hh
      exact Except.noConfusion hh
    | ok st2 =>
      rw [hpc, except_bind_ok] at hh
      have h2 := parse_component_stinv k c st0 st2 h0 hpc
      have h3 := ih (k + 1) st2 st1 h2 hh
      rwa [show k + 1 + cs.length = k + (c :: cs).length from by simp; omega] at h3

lemma parse_components_stinv (comps : List SComponent) (st : ParseState)
    (h : parse_components comps = Except.ok st) : StInv comps.length st := by
  unfold parse_components at h
  have := parse_fold_stinv comps 0 initParseState st stinv_init
    (by rwa [show comps.enum = List.enumFrom 0 comps from rfl] at h)
  simpa using this

lemma foldl_set_length (ps : List (ℕ × ℝ)) (l : List ℝ) :
    (ps.foldl (fun l ip => l.set ip.1 ip.2) l).length = l.length := by
  induction ps generalizing l with
  | nil => rfl
  | cons p ps ih => rw [List.foldl_cons, ih, List.length_set]

lemma foldl_set_mem (ps : List (ℕ × ℝ)) (l : List ℝ) (a : ℝ)
    (ha : a ∈ ps.foldl (fun l ip => l.set ip.1 ip.2) l) :
    a ∈ l ∨ ∃ p ∈ ps, a = p.2 := by
  induction ps generalizing l with
  | nil => exact Or.inl ha
  | cons p ps ih =>
    rw [List.foldl_cons] at ha
    rcases ih (l.set p.1 p.2) ha with h | h
    · rcases List.mem_or_eq_of_mem_set h with h1 | h1
      · exact Or.inl h1
      · exact Or.inr ⟨p, by simp, h1⟩
    · rcases h with ⟨q, hq, rfl⟩
      exact Or.inr ⟨q, by simp [hq], rfl⟩

lemma sum_set_of_lt (l : List ℝ) (i : ℕ) (a : ℝ) (h : i < l.length) :
    (l.set i a).sum = l.sum - l.get ⟨i, h⟩ + a := by
  induction l generalizing i with
  | nil => simp at h
  | cons x xs ih =>
    cases i with
    | zero =>
      simp [List.set]
      ring
    | succ n =>
      have hn : n < xs.length := by simpa using h
      simp [List.set, ih n hn]
      ring

lemma foldl_set_sum (ps : List (ℕ × ℝ)) (l : List ℝ)
    (hlt : ∀ p ∈ ps, p.1 < l.length)
    (hnd : (ps.map Prod.fst).Nodup)
    (hz : ∀ p ∈ ps, ∀ (h : p.1 < l.length), l.get ⟨p.1, h⟩ = 0) :
    (ps.foldl (fun l ip => l.set ip.1 ip.2) l).sum = l.sum + (ps.map Prod.snd).sum := by
  induction ps generalizing l with
  | nil => simp
  | cons p ps ih =>
    rw [List.foldl_cons]
    have hp : p.1 < l.length := hlt p (by simp)
    have hlen : (l.set p.1 p.2).length = l.length := List.length_set l p.1 p.2
    have hnd0 : (p.1 :: ps.map Prod.fst).Nodup := by
      rw [List.map_cons] at hnd
      exact hnd
    have hcons := List.nodup_cons.mp hnd0
    have hne : ∀ q ∈ ps, q.1 ≠ p.1 := by
      intro q hq heq
      exact hcons.1 (heq ▸ List.mem_map_of_mem Prod.fst hq)
    have hlt2 : ∀ q ∈ ps, q.1 < (l.set p.1 p.2).length := by
      intro q hq
      rw [hlen]
      exact hlt q (by simp [hq])
    have hnd2 : (ps.map Prod.fst).Nodup := hcons.2
    have hz2 : ∀ q ∈ ps, ∀ (h : q.1 < (l.set p.1 p.2).length),
        (l.set p.1 p.2).get ⟨q.1, h⟩ = 0 := by
      intro q hq hh
      have hq1 : q.1 < l.length := hlt q (by simp [hq])
      have heq : (l.set p.1 p.2).get ⟨q.1, hh⟩ = l.get ⟨q.1, hq1⟩ := by
        simpa [List.get_eq_getElem] using
          List.getElem_set_ne (l := l) (a := p.2) (hne q hq).symm
            (by simpa [hlen] using hq1)
      rw [heq]
      exact hz q (by simp [hq]) hq1
    rw [ih (l.set p.1 p.2) hlt2 hnd2 hz2, sum_set_of_lt l p.1 p.2 hp, hz p (by simp) hp]
    simp
    ring

lemma abs_round6_sub (x : ℝ) : |round6 x - x| ≤ 5e-7 := by
  unfold round6
  have h := abs_sub_round (x * 1000000)
  have heq : (round (x * 1000000) : ℝ) / 1000000 - x
      = -((x * 1000000 - (round (x * 1000000) : ℝ)) / 1000000) := by ring
  rw [heq, abs_neg, abs_div, abs_of_pos (by norm_num : (0 : ℝ) < 1000000)]
  rw [div_le_iff₀ (by norm_num : (0 : ℝ) < 1000000)]
  calc |x * 1000000 - (round (x * 1000000) : ℝ)| ≤ 1 / 2 := h
    _ ≤ 5e-7 * 1000000 := by norm_num

lemma round6_nonneg (x : ℝ) (hx : 0 ≤ x) : 0 ≤ round6 x := by
  unfold round6
  have h : (0 : ℤ) ≤ round (x * 1000000) := by
    rw [round_eq]
    exact Int.floor_nonneg.mpr (by nlinarith)
  positivity

lemma round6_le_100 (x : ℝ) (hx : x ≤ 100) : round6 x ≤ 100 := by
  unfold round6
  have h : round (x * 1000000) ≤ 100000000 := by
    by_contra hc
    push_neg at hc
    have h2 : (100000001 : ℤ) ≤ round (x * 1000000) := by omega
    have h3 : ((100000001 : ℤ) : ℝ) ≤ x * 1000000 + 1 / 2 := by
      rw [round_eq] at h2
      calc ((100000001 : ℤ) : ℝ) ≤ (⌊x * 1000000 + 1 / 2⌋ : ℝ) := by exact_mod_cast h2
        _ ≤ x * 1000000 + 1 / 2 := Int.floor_le _
    push_cast at h3
    nlinarith
  rw [div_le_iff₀ (by norm_num : (0 : ℝ) < 1000000)]
  calc (round (x * 1000000) : ℝ) ≤ ((100000000 : ℤ) : ℝ) := by exact_mod_cast h
    _ = 100 * 1000000 := by norm_num

lemma forall₂_mem_right {α β : Type} {R : α → β → Prop} {as : List α} {bs : List β}
    (h : List.Forall₂ R as bs) (b : β) (hb : b ∈ bs) : ∃ a ∈ as, R a b := by
  induction h with
  | nil => simp at hb
  | cons hr _ ih =>
    rcases List.mem_cons.mp hb with rfl | hb2
    · exact ⟨_, by simp, hr⟩
    · rcases ih hb2 with ⟨a, ha, har⟩
      exact ⟨a, by simp [ha], har⟩

lemma zipWith_ones (xs : List ℝ) :
    List.zipWith (fun a b => a * b) (List.replicate xs.length (1 : ℝ)) xs = xs := by
  induction xs with
  | nil => rfl
  | cons x xs ih => simp [List.replicate_succ, ih]

lemma dot_ones (xs : List ℝ) : dot (List.replicate xs.length 1) xs = xs.sum := by
  unfold dot
  rw [zipWith_ones]

/-- Feasibility of a candidate point for an assembled linear program: the
point respects every variable bound, every equality row and every
inequality row — exactly the contract of the external LP capability. -/
def LPFeasible (prob : LPProblem) (xs : List ℝ) : Prop :=
  List.Forall₂ (fun bd x => bd.1 ≤ x ∧ x ≤ bd.2) prob.bounds xs ∧
  List.Forall₂ (fun row b => dot row xs = b) prob.A_eq prob.b_eq ∧
  List.Forall₂ (fun row b => dot row xs ≤ b) prob.A_ub prob.b_ub

/-- An LP oracle honouring the external solver's contract: whenever it
reports success, the returned point is feasible for the submitted program. -/
def FeasibleOracle (oracle : LPProblem → Option (List ℝ)) : Prop :=
  ∀ prob xs, oracle prob = some xs → LPFeasible prob xs

lemma build_lp_shape (st : ParseState) (obj : Option ObjSpec)
    (msv mrmin mrmax : Option ℝ) (prob : LPProblem)
    (h : build_lp st obj msv mrmin mrmax = Except.ok prob) :
    prob.bounds = st.var_bounds ∧
    ∃ rest brest, prob.A_eq = List.replicate st.var_indices.length 1 :: rest ∧
      prob.b_eq = (1 - st.fixed_sum) :: brest := by
  unfold build_lp at h
  cases msv with
  | some mv =>
    by_cases h7 : mv + 0.7 ≤ 1
    · simp [h7] at h
    · simp [h7] at h
      subst h
      exact ⟨rfl, _, _, rfl, rfl⟩
  | none =>
    cases mrmin with
    | some mn =>
      cases mrmax with
      | some mx =>
        by_cases h7 : mn + 0.7 ≤ 1
        · simp [h7] at h
        · by_cases h8 : mx + 0.7 ≤ 1
          · simp [h7, h8] at h
          · simp [h7, h8] at h
            subst h
            exact ⟨rfl, _, _, rfl, rfl⟩
      | none =>
        simp at h
        subst h
        exact ⟨rfl, _, _, rfl, rfl⟩
    | none =>
      cases mrmax with
      | some mx =>
        simp at h
        subst h
        exact ⟨rfl, _, _, rfl, rfl⟩
      | none =>
        simp at h
        subst h
        exact ⟨rfl, _, _, rfl, rfl⟩

lemma forall₂_map_map {α β γ : Type} (l : List α) (f : α → β) (g : α → γ)
    {R : β → γ → Prop} (h : ∀ a ∈ l, R (f a) (g a)) :
    List.Forall₂ R (l.map f) (l.map g) := by
  induction l with
  | nil => simp
  | cons a l ih =>
    exact List.Forall₂.cons (h a (by simp)) (ih (fun b hb => h b (by simp [hb])))

lemma forall₂_enum_round6 (F : List ℝ) :
    List.Forall₂ (fun (pr : ℕ × ℝ) (f : ℝ) => |pr.2 - f * 100| ≤ 5e-7)
      (F.enum.map (fun p => (p.1, round6 (p.2 * 100)))) F := by
  have main : ∀ (l : List ℝ) (k : ℕ),
      List.Forall₂ (fun (pr : ℕ × ℝ) (f : ℝ) => |pr.2 - f * 100| ≤ 5e-7)
        ((List.enumFrom k l).map (fun p => (p.1, round6 (p.2 * 100)))) l := by
    intro l
    induction l with
    | nil => intro k; simp
    | cons x xs ih =>
      intro k
      exact List.Forall₂.cons (abs_round6_sub (x * 100)) (ih (k + 1))
  have h := main F 0
  rwa [show List.enumFrom 0 F = F.enum from rfl] at h

lemma degenerate_conclusion (n : ℕ) (st : ParseState) (hinv : StInv n st)
    (hsum1 : |st.fixed_sum - 1| ≤ 1e-6) :
    (∀ pr ∈ st.fixed_fractions.map (fun ip => (ip.1, ip.2 * 100)), 0 ≤ pr.2 ∧ pr.2 ≤ 100) ∧
    ∃ fs : List ℝ, (∀ f ∈ fs, 0 ≤ f ∧ f ≤ 1) ∧ |fs.sum - 1| ≤ 1e-6 ∧
      List.Forall₂ (fun pr f => |pr.2 - f * 100| ≤ 5e-7)
        (st.fixed_fractions.map (fun ip => (ip.1, ip.2 * 100))) fs := by
  constructor
  · intro pr hpr
    rcases List.mem_map.mp hpr with ⟨ip, hip, rfl⟩
    have h := hinv.fixed_mem ip hip
    constructor
    · simp only
      nlinarith [h.1]
    · simp only
      nlinarith [h.2]
  · refine ⟨st.fixed_fractions.map Prod.snd, ?_, ?_, ?_⟩
    · intro f hf
      rcases List.mem_map.mp hf with ⟨ip, hip, rfl⟩
      exact hinv.fixed_mem ip hip
    · rw [← hinv.sum_eq]
      exact hsum1
    · apply forall₂_map_map
      intro ip _
      simp
      norm_num

lemma general_conclusion (n : ℕ) (st : ParseState) (hinv : StInv n st) (xs : List ℝ)
    (hlen : xs.length = st.var_indices.length)
    (hbd : List.Forall₂ (fun bd x => bd.1 ≤ x ∧ x ≤ bd.2) st.var_bounds xs)
    (hsum : xs.sum = 1 - st.fixed_sum) (res : SolveResult)
    (hok : post_solve n st xs = Except.ok res) :
    (∀ pr ∈ res.fractions, 0 ≤ pr.2 ∧ pr.2 ≤ 100) ∧
    ∃ fs : List ℝ, (∀ f ∈ fs, 0 ≤ f ∧ f ≤ 1) ∧ |fs.sum - 1| ≤ 1e-6 ∧
      List.Forall₂ (fun pr f => |pr.2 - f * 100| ≤ 5e-7) res.fractions fs := by
  have hfold : (st.var_indices.zip xs).foldl (fun l ip => l.set ip.1 ip.2)
      (st.fixed_fractions.foldl (fun l ip => l.set ip.1 ip.2) (List.replicate n 0))
      = (st.fixed_fractions ++ st.var_indices.zip xs).foldl
          (fun l ip => l.set ip.1 ip.2) (List.replicate n 0) :=
    (List.foldl_append _ _ _ _).symm
  set ps := st.fixed_fractions ++ st.var_indices.zip xs with hps
  have hmapfst : ps.map Prod.fst = st.fixed_fractions.map Prod.fst ++ st.var_indices := by
    rw [hps, List.map_append, List.map_fst_zip _ _ (le_of_eq hlen.symm)]
  have hperm : (ps.map Prod.fst).Perm (List.range n) := by
    rw [hmapfst]
    exact hinv.idx_perm
  have hnd : (ps.map Prod.fst).Nodup := hperm.symm.nodup (List.nodup_range n)
  have hlt : ∀ p ∈ ps, p.1 < n := by
    intro p hp
    have h1 : p.1 ∈ ps.map Prod.fst := List.mem_map_of_mem Prod.fst hp
    exact List.mem_range.mp (hperm.mem_iff.mp h1)
  set F := ps.foldl (fun l ip => l.set ip.1 ip.2) (List.replicate n (0 : ℝ)) with hF
  have hFmem : ∀ f ∈ F, 0 ≤ f ∧ f ≤ 1 := by
    intro f hf
    rcases foldl_set_mem ps _ f hf with h0 | ⟨p, hp, rfl⟩
    · have h1 : f = 0 := List.eq_of_mem_replicate h0
      simp [h1]
    · rw [hps] at hp
      rcases List.mem_append.mp hp with hp1 | hp1
      · exact hinv.fixed_mem p hp1
      · have hx : p.2 ∈ xs := by
          obtain ⟨i, x⟩ := p
          exact (List.of_mem_zip hp1).2
        rcases forall₂_mem_right hbd p.2 hx with ⟨bd, hbd2, hbd3⟩
        have h2 := hinv.bounds_mem bd hbd2
        exact ⟨le_trans h2.1 hbd3.1, le_trans hbd3.2 h2.2.2⟩
  have hFsum : F.sum = 1 := by
    rw [hF, foldl_set_sum ps _ (by simpa using hlt) hnd
      (by intro p hp h; simp)]
    rw [hps, List.map_append, List.map_snd_zip _ _ (le_of_eq hlen)]
    rw [List.sum_append, ← hinv.sum_eq, hsum]
    simp
  simp only [post_solve] at hok
  rw [hfold] at hok
  have hno : ¬ ∃ f ∈ F, f < -1e-6 := by
    rintro ⟨f, hf, hlt2⟩
    have := (hFmem f hf).1
    linarith
  rw [if_neg hno] at hok
  have hnorm : ¬ (|F.sum - 1| > 1e-6) := by
    rw [hFsum]
    norm_num
  rw [if_neg hnorm] at hok
  injection hok with h1
  subst h1
  constructor
  · intro pr hpr
    rcases List.mem_map.mp hpr with ⟨p, hp, rfl⟩
    have hpF : p.2 ∈ F := by
      obtain ⟨i, x⟩ := p
      have h2 := List.mem_enum hp
      exact h2.2 ▸ List.getElem_mem h2.1
    have hb := hFmem p.2 hpF
    constructor
    · exact round6_nonneg _ (by nlinarith [hb.1])
    · exact round6_le_100 _ (by nlinarith [hb.2])
  · exact ⟨F, hFmem, by rw [hFsum]; norm_num, forall₂_enum_round6 F⟩

/-- C6: solution-fractions invariant — whenever the general mixture solver
returns a solution (through the degenerate all-fixed branch or through the
LP branch with an oracle honouring the external solver's feasibility
contract), every returned percentage lies in `[0, 100]`, and the underlying
solution fractions lie in `[0, 1]` with their sum within `1e-6` of 1; each
returned percentage is that fraction times 100 up to the final 6-decimal
rounding (at most `5e-7`).  The post-solve guards (rejection of fractions
below `-1e-6`, renormalization of a drifted sum) never fire on a feasible
point. -/
theorem solver_fractions_invariant (comps : List SComponent) (mix : MixInfo)
    (oracle : LPProblem → Option (List ℝ)) (res : SolveResult)
    (hor : FeasibleOracle oracle)
    (hok : solve_general_mixture comps mix oracle = Except.ok res) :
    (∀ pr ∈ res.fractions, 0 ≤ pr.2 ∧ pr.2 ≤ 100) ∧
    ∃ fs : List ℝ, (∀ f ∈ fs, 0 ≤ f ∧ f ≤ 1) ∧ |fs.sum - 1| ≤ 1e-6 ∧
      List.Forall₂ (fun pr f => |pr.2 - f * 100| ≤ 5e-7) res.fractions fs := by
  unfold solve_general_mixture at hok
  by_cases hn0 : comps.length = 0
  · rw [if_pos hn0] at hok
    exact Except.noConfusion hok
  rw [if_neg hn0] at hok
  cases hp : parse_components comps with
  | error e =>
    rw [hp] at hok
    exact Except.noConfusion hok
  | ok st =>
    rw [hp] at hok
    simp only [] at hok
    have hinv := parse_components_stinv comps st hp
    cases hm : parse_mixture mix st.objective with
    | error e =>
      rw [hm] at hok
      exact Except.noConfusion hok
    | ok quad =>
      rw [hm] at hok
      obtain ⟨obj, msv, mrmin, mrmax⟩ := quad
      simp only [] at hok
      by_cases hfs : st.fixed_sum > 1 + 1e-9
      · rw [if_pos hfs] at hok
        exact Except.noConfusion hok
      rw [if_neg hfs] at hok
      by_cases hvi : st.var_indices.length = 0
      · rw [if_pos hvi] at hok
        by_cases hs1 : |st.fixed_sum - 1| > 1e-6
        · rw [if_pos hs1] at hok
          exact Except.noConfusion hok
        rw [if_neg hs1] at hok
        have hdeg := degenerate_conclusion comps.length st hinv (not_lt.mp hs1)
        cases msv with
        | some mv =>
          simp only [] at hok
          by_cases hmv : |walther_inverse st.fixed_x_contrib - mv| > 1e-6
          · rw [if_pos hmv] at hok
            exact Except.noConfusion hok
          · rw [if_neg hmv] at hok
            injection hok with h1
            subst h1
            exact hdeg
        | none =>
          cases mrmin with
          | some mn =>
            cases mrmax with
            | some mx =>
              simp only [] at hok
              by_cases hr : walther_inverse st.fixed_x_contrib < mn - 1e-6 ∨
                  walther_inverse st.fixed_x_contrib > mx + 1e-6
              · rw [if_pos hr] at hok
                exact Except.noConfusion hok
              · rw [if_neg hr] at hok
                injection hok with h1
                subst h1
                exact hdeg
            | none =>
              simp only [] at hok
              injection hok with h1
              subst h1
              exact hdeg
          | none =>
            simp only [] at hok
            injection hok with h1
            subst h1
            exact hdeg
      · rw [if_neg hvi] at hok
        cases hb : build_lp st obj msv mrmin mrmax with
        | error e =>
          rw [hb] at hok
          exact Except.noConfusion hok
        | ok prob =>
          rw [hb] at hok
          simp only [] at hok
          cases ho : oracle prob with
          | none =>
            rw [ho] at hok
            exact Except.noConfusion hok
          | some xs =>
            rw [ho] at hok
            simp only [] at hok
            obtain ⟨hbnd, heq, _⟩ := hor prob xs ho
            obtain ⟨hbounds_eq, rest, brest, hAeq, hbeq⟩ :=
              build_lp_shape st obj msv mrmin mrmax prob hb
            rw [hbounds_eq] at hbnd
            have hxlen : xs.length = st.var_indices.length := by
              have h2 := hbnd.length_eq
              rw [hinv.len_b] at h2
              omega
            rw [hAeq, hbeq] at heq
            have hd := (List.forall₂_cons.mp heq).1
            have hsum : xs.sum = 1 - st.fixed_sum := by
              rw [← hd, ← hxlen, dot_ones]
            exact general_conclusion comps.length st hinv xs hxlen hbnd hsum res hok

theorem solver_fractions_invariant_witness :
    FeasibleOracle (fun _ => none) ∧
    ∃ res, solve_general_mixture
        [⟨some 10, some "fixed", some 30, none, none⟩,
         ⟨some 20, some "fixed", some 70, none, none⟩]
        ⟨none, none, none, none⟩ (fun _ => none) = Except.ok res ∧
      ((∀ pr ∈ res.fractions, 0 ≤ pr.2 ∧ pr.2 ≤ 100) ∧
        ∃ fs : List ℝ, (∀ f ∈ fs, 0 ≤ f ∧ f ≤ 1) ∧ |fs.sum - 1| ≤ 1e-6 ∧
          List.Forall₂ (fun pr f => |pr.2 - f * 100| ≤ 5e-7) res.fractions fs) := by
  have hor : FeasibleOracle (fun _ => none) := fun prob xs h => Option.noConfusion h
  have hok := (solve_all_fixed_spec
      [⟨some 10, some "fixed", some 30, none, none⟩,
       ⟨some 20, some "fixed", some 70, none, none⟩]
      ⟨none, none, none, none⟩ (fun _ => none) (by simp)
      (by
        intro c hc
        simp only [List.mem_cons, List.not_mem_nil, or_false] at hc
        rcases hc with rfl | rfl
        · exact ⟨Or.inl rfl, ⟨10, rfl, by norm_num, by norm_num⟩,
            ⟨30, rfl, by norm_num, by norm_num⟩⟩
        · exact ⟨Or.inl rfl, ⟨20, rfl, by norm_num, by norm_num⟩,
            ⟨70, rfl, by norm_num, by norm_num⟩⟩)
      (Or.inl rfl)).1
      (by norm_num [fixedSumOf, fixedVal])
      (by norm_num [fixedSumOf, fixedVal])
  exact ⟨hor, _, hok, solver_fractions_invariant _ _ _ _ hor hok⟩
